import Mathlib

/-!
Verification of the planner pipeline in agent/src (config.py, graph.py,
state.py): state initialization, skill-text formatting, model-identifier
resolution and client construction, LLM node construction with its
replace/append merge policy, and the compiled two-node goal/task graph.

External boundaries (the HTTP environment call, the langchain chain
invocation, the model backend) are modelled at their interface: the
decoded response or invocation outcome is passed in explicitly.
-/

namespace Agent

/-- Error taxonomy of the pipeline (spec section 7): unresolvable model
identifier, model transport failure, output parse failure, a state
operation failing (missing or non-list field on an append commit), and
malformed graph wiring. -/
inductive AgentError where
  | unknownModel
  | modelInvocation
  | outputParse
  | stateOp
  | graphIntegrity
deriving DecidableEq

/-- Runtime values held by the state dictionary: strings, lists, and
string-keyed dictionaries, mirroring the Python values that flow through
StateSchema (user query strings, subgoal strings, task record dicts). -/
inductive Value where
  | str (s : String)
  | list (l : List Value)
  | dict (d : List (String × Value))

/-- State of one run: the Python dict of StateSchema as an association
list keyed by field name, in insertion order. -/
def StateV : Type := List (String × Value)

/-- Dictionary read, first binding wins (keys are unique in practice
because setV replaces in place). -/
def getV : StateV → String → Option Value
  | [], _ => none
  | (k, v) :: rest, key => if k = key then some v else getV rest key

/-- Dictionary write: replaces the existing binding in place, or appends
a new binding, mirroring Python dict assignment. -/
def setV : StateV → String → Value → StateV
  | [], key, v => [(key, v)]
  | (k, w) :: rest, key, v =>
    if k = key then (key, v) :: rest else (k, w) :: setV rest key v

theorem getV_setV_self (s : StateV) (k : String) (v : Value) :
    getV (setV s k v) k = some v := by
  induction s with
  | nil => simp [setV, getV]
  | cons hd tl ih =>
    by_cases h : hd.1 = k
    · simp [setV, h, getV]
    · simp [setV, h, getV, ih]

theorem getV_setV_ne (s : StateV) (k k' : String) (v : Value) (h : k' ≠ k) :
    getV (setV s k v) k' = getV s k' := by
  induction s with
  | nil => simp [setV, getV, Ne.symm h]
  | cons hd tl ih =>
    obtain ⟨k0, v0⟩ := hd
    by_cases hk : k0 = k
    · subst hk
      simp [setV, getV, Ne.symm h]
    · by_cases hk' : k0 = k'
      · subst hk'
        simp [setV, getV, hk]
      · simp [setV, getV, hk, hk', ih]

/-! ### state.py -/

/-- Embedding of make_object_text. The HTTP GET against url/env and the
JSON decode are the external environment boundary; objects is the decoded
objects field of the response. The doubled braces of the source string
are literal here (the source is not an f-string on those lines). -/
def make_object_text (objects : List String) : String :=
  "\x7b\x7b\n" ++
    String.join (objects.map (fun obj => "\"object_name\": \"" ++ obj ++ "\",\n")) ++
    "\x7d\x7d"

/-- Data of config.py RobotSkillConfig: a robot name and its skill
identifiers. -/
structure RobotSkillConfig where
  name : String
  skills : List String
deriving DecidableEq

/-- Read of the Python expression skills[-1] inside the make_skill_text
loop. The default is never consulted: the comparison only runs while
iterating a nonempty list. -/
def lastSkill (skills : List String) : String := skills.getLast?.getD ""

/-- Embedding of one iteration of the outer make_skill_text loop: the
running string starts at the import stem and each skill is appended,
followed by a comma separator exactly when that skill differs from the
final element skills[-1]. -/
def skillLine (r : RobotSkillConfig) : String :=
  r.skills.foldl
    (fun acc sk => acc ++ sk ++ (if sk = lastSkill r.skills then "" else ", "))
    ("from " ++ r.name ++ ".skills import ")

/-- Semantics of Python str.join on a list of strings. -/
def sepJoin (sep : String) : List String → String
  | [] => ""
  | [x] => x
  | x :: y :: rest => x ++ sep ++ sepJoin sep (y :: rest)

/-- Embedding of make_skill_text: one line per robot, lines joined by
newlines. -/
def make_skill_text (config_skills : List RobotSkillConfig) : String :=
  sepJoin "\n" (config_skills.map skillLine)

/-- Text the skillLine fold emits after the import stem: each skill
followed by the comma separator unless it equals the final skill. -/
def emitSkills (lastS : String) : List String → String
  | [] => ""
  | sk :: rest => sk ++ (if sk = lastS then "" else ", ") ++ emitSkills lastS rest

/-- Embedding of the base state returned by the private base-state
helper of state.py: every field defaults to an empty container. -/
def make_base_state : StateV :=
  [("user_queries", .list []), ("inputs", .dict []),
   ("subgoals", .list []), ("tasks", .list [])]

/-- Embedding of the private inputs helper of state.py: object_text from
the environment call, then skill_text from the skill configuration, in
insertion order. -/
def make_inputs (config_skills : List RobotSkillConfig) (objects : List String) :
    List (String × Value) :=
  [("object_text", .str (make_object_text objects)),
   ("skill_text", .str (make_skill_text config_skills))]

/-- Embedding of make_state: deep-copies the base state (identity in
this functional embedding), records the single user query, and populates
inputs once. The url argument only feeds the external HTTP call, which
is represented by the decoded objects list. -/
def make_state (user_query : String) (config_skills : List RobotSkillConfig)
    (objects : List String) : StateV :=
  let state := make_base_state
  let state := setV state "user_queries" (.list [.str user_query])
  let state := setV state "inputs" (.dict (make_inputs config_skills objects))
  state

/-! ### graph.py: model resolution and client construction -/

/-- Modelled from the spec: the supported model enumeration lives in the
module agent/src/enums.py (imported as .enums.ModelNames), which is not
under src. The spec says identifiers resolve against it by value or by
symbolic name and otherwise fail with UnknownModelError; the repository
configuration names the member gpt41mini. -/
inductive ModelNames where
  | gpt41mini
deriving DecidableEq

/-- Modelled from the spec: the string value of each enumeration
member. -/
def ModelNames.value : ModelNames → String
  | .gpt41mini => "gpt-4.1-mini"

/-- Modelled from the spec: the symbolic name of each enumeration
member. -/
def ModelNames.symName : ModelNames → String
  | .gpt41mini => "gpt41mini"

/-- Modelled from the spec: the members of the supported enumeration. -/
def allModels : List ModelNames := [.gpt41mini]

/-- Embedding of the resolver in graph.py: ModelNames(model_name) looks
the identifier up by value (ValueError on a miss), and the except branch
ModelNames[model_name] looks it up by symbolic name; an identifier
matching neither fails with UnknownModelError (the error class is
modelled from the spec since enums.py is not under src). String inputs
only: the isinstance branch for an already-resolved member is the
identity. -/
def resolve_model_enum (model_name : String) : Except AgentError ModelNames :=
  match allModels.find? (fun m => m.value == model_name) with
  | some m => .ok m
  | none =>
    match allModels.find? (fun m => m.symName == model_name) with
    | some m => .ok m
    | none => .error .unknownModel

/-- Keyword arguments the ChatOpenAI client is constructed with: an
absent optional field models a keyword that was not passed. Constructing
this value performs no network call; the client only contacts the
backend when invoked. -/
structure ChatOpenAIArgs where
  model : String
  temperature : Option ℚ
  extra_body : Option (List (String × String))
deriving DecidableEq

/-- Embedding of create_llm. The truthiness test of the source on
prompt_cache_key (a str-or-None) is false exactly for None and the empty
string; the later truthiness test on extra_body (a dict-or-None) is
false for None and for an empty dict. -/
def create_llm (model_name : ModelNames) (temperature : Option ℚ)
    (prompt_cache_key : Option String) : ChatOpenAIArgs :=
  let extra_body : Option (List (String × String)) :=
    match prompt_cache_key with
    | some k => if k = "" then none else some [("prompt_cache_key", k)]
    | none => none
  { model := model_name.value
    temperature := temperature
    extra_body :=
      match extra_body with
      | some d => if d.isEmpty then none else some d
      | none => none }

/-- Client-creation path used by create_graph: resolve the identifier,
then construct the client arguments. On a resolution failure no client
value exists, hence nothing that could contact the network. -/
def create_client_for (model_name : String) (cache_key : Option String) :
    Except AgentError ChatOpenAIArgs :=
  match resolve_model_enum model_name with
  | .error e => .error e
  | .ok m => .ok (create_llm m none cache_key)

/-! ### graph.py: node builder -/

/-- Output schema descriptor handed to PydanticOutputParser: its JSON
schema rendering, which is what the format instructions embed. -/
structure PydSchema where
  schemaText : String
deriving DecidableEq

/-- Modelled external library boundary: get_format_instructions of
PydanticOutputParser renders a constant instruction template around the
schema JSON, so its result is never the empty string. -/
def get_format_instructions (s : PydSchema) : String :=
  "The output should be formatted as a JSON instance that conforms to the JSON schema below.\n"
    ++ s.schemaText

/-- Which parser the built chain ends with: the structured pydantic
parser for a supplied schema, or the pass-through string parser. -/
inductive ParserKind where
  | pydanticOutput (s : PydSchema)
  | strOutput
deriving DecidableEq

/-- Build-time data of a node produced by make_llm_node: the format
instructions computed once at build time, the chosen parser (none when
skipParser is set), and the merge policy, that is the target state key
and whether to append (true) or replace (false). -/
structure NodeBuild where
  formatInstructions : String
  parserKind : Option ParserKind
  stateKey : String
  stateAppend : Bool
deriving DecidableEq

/-- Embedding of the build-time part of make_llm_node: format
instructions start empty and are derived from the schema exactly when a
schema is supplied and parsing is not skipped; with no schema and
parsing not skipped the pass-through string parser is chosen. -/
def make_llm_node (parser_output : Option PydSchema) (skipParser : Bool)
    (state_key : String) (state_append : Bool) : NodeBuild :=
  if skipParser then
    { formatInstructions := "", parserKind := none,
      stateKey := state_key, stateAppend := state_append }
  else
    match parser_output with
    | some s =>
      { formatInstructions := get_format_instructions s,
        parserKind := some (.pydanticOutput s),
        stateKey := state_key, stateAppend := state_append }
    | none =>
      { formatInstructions := "", parserKind := some .strOutput,
        stateKey := state_key, stateAppend := state_append }

/-- Placeholder-to-value mapping assembled for one invocation. -/
def PInputs : Type := List (String × String)

/-- Dictionary write on the inputs mapping (Python dict assignment). -/
def setInput : PInputs → String → String → PInputs
  | [], key, v => [(key, v)]
  | (k, w) :: rest, key, v =>
    if k = key then (key, v) :: rest else (k, w) :: setInput rest key v

/-- Dictionary read on the inputs mapping. -/
def getInput : PInputs → String → Option String
  | [], _ => none
  | (k, v) :: rest, key => if k = key then some v else getInput rest key

/-- Embedding of the input-assembly step at the top of the inner node
function: call make_inputs on the state, then, when the format
instructions string is truthy (nonempty), inject it under the reserved
placeholder name. -/
def assembleInputs (nb : NodeBuild) (makeInputsFn : StateV → PInputs)
    (state : StateV) : PInputs :=
  let inputs := makeInputsFn state
  if nb.formatInstructions = "" then inputs
  else setInput inputs "format_instructions" nb.formatInstructions

/-- Embedding of the inner node function of make_llm_node. chainInvoke
stands for chain.invoke on the assembled inputs followed by the
model_dump step for a pydantic parser: the external model call plus
parsing, which either yields the parsed result or raises (model
invocation or output parse error). Only after a successful invocation is
the result committed under the merge policy: append pushes onto the
existing sequence at the target key (a missing or non-list value there
raises), replace overwrites the target key. -/
def nodeRun (nb : NodeBuild) (makeInputsFn : StateV → PInputs)
    (chainInvoke : PInputs → Except AgentError Value) (state : StateV) :
    Except AgentError StateV :=
  let inputs := assembleInputs nb makeInputsFn state
  match chainInvoke inputs with
  | .error e => .error e
  | .ok result =>
    if nb.stateAppend then
      match getV state nb.stateKey with
      | some (.list l) => .ok (setV state nb.stateKey (.list (l ++ [result])))
      | _ => .error .stateOp
    else
      .ok (setV state nb.stateKey result)

/-! ### graph.py: graph builder and runner -/

/-- START sentinel of the graph library. -/
def STARTN : String := "__start__"

/-- END sentinel of the graph library. -/
def ENDN : String := "__end__"

/-- Node function type: one state-transforming step that may fail. -/
def NodeFn : Type := StateV → Except AgentError StateV

/-- Graph under construction: named nodes and directed edges, in
declaration order. -/
structure StateGraphB where
  nodes : List (String × NodeFn)
  edges : List (String × String)

/-- Empty workflow. -/
def emptyGraph : StateGraphB := { nodes := [], edges := [] }

/-- Embedding of add_node. -/
def add_node (g : StateGraphB) (name : String) (f : NodeFn) : StateGraphB :=
  { g with nodes := g.nodes ++ [(name, f)] }

/-- Embedding of add_edge. -/
def add_edge (g : StateGraphB) (src dst : String) : StateGraphB :=
  { g with edges := g.edges ++ [(src, dst)] }

/-- Embedding of compile with checkpointer=None: the compiled plan
carries the same nodes and edges. -/
def compileGraph (g : StateGraphB) : StateGraphB := g

/-- Successor of a node along the first matching edge. -/
def findNext (edges : List (String × String)) (cur : String) : Option String :=
  (edges.find? (fun e => e.1 == cur)).map (fun e => e.2)

/-- Lookup of a declared node function by name. -/
def findNode (nodes : List (String × NodeFn)) (name : String) : Option NodeFn :=
  (nodes.find? (fun n => n.1 == name)).map (fun n => n.2)

/-- Sequential walk of the plan from the current node: follow the single
outgoing edge, stop with the current state at END, otherwise invoke the
successor node and continue from it. Fuel bounds the walk; the graphs at
hand terminate well within it. -/
def runFrom (g : StateGraphB) : Nat → String → StateV → Except AgentError StateV
  | 0, _, _ => .error .graphIntegrity
  | fuel + 1, cur, s =>
    match findNext g.edges cur with
    | none => .error .graphIntegrity
    | some nxt =>
      if nxt = ENDN then .ok s
      else
        match findNode g.nodes nxt with
        | none => .error .graphIntegrity
        | some f =>
          match f s with
          | .error e => .error e
          | .ok s1 => runFrom g fuel nxt s1

/-- Run of a compiled plan: walk from START with enough fuel for every
declared node. -/
def runGraph (g : StateGraphB) (s : StateV) : Except AgentError StateV :=
  runFrom g (g.nodes.length + 1) STARTN s

/-- Names of the nodes a run visits, in order, ignoring node results. -/
def walkOrder (edges : List (String × String)) : Nat → String → List String
  | 0, _ => []
  | fuel + 1, cur =>
    match findNext edges cur with
    | none => []
    | some nxt => if nxt = ENDN then [] else nxt :: walkOrder edges fuel nxt

/-- Execution order of a plan: node names visited from START to END. -/
def execOrder (g : StateGraphB) : List String :=
  walkOrder g.edges (g.edges.length + 1) STARTN

/-- Whether END is reachable from a node by following edges. -/
def reachesEND (edges : List (String × String)) : Nat → String → Bool
  | 0, _ => false
  | fuel + 1, cur =>
    match findNext edges cur with
    | none => false
    | some nxt => nxt == ENDN || reachesEND edges fuel nxt

/-- Embedding of create_graph, parameterized over the pieces imported
from the prompts module (not under src): the two output schemas, the two
input-assembly functions, and the two chain invocations (the constructed
llm clients only act through these). The merge wiring is from source:
the goal node targets subgoals and the task node targets tasks, both
with state_append false, that is replace. -/
def create_graph (goalSchema taskSchema : PydSchema)
    (goalMakeInputs taskMakeInputs : StateV → PInputs)
    (goalInvoke taskInvoke : PInputs → Except AgentError Value) : StateGraphB :=
  let goal_node : NodeFn :=
    nodeRun (make_llm_node (some goalSchema) false "subgoals" false)
      goalMakeInputs goalInvoke
  let task_node : NodeFn :=
    nodeRun (make_llm_node (some taskSchema) false "tasks" false)
      taskMakeInputs taskInvoke
  let workflow := emptyGraph
  let workflow := add_node workflow "goal_decomp" goal_node
  let workflow := add_node workflow "task_decomp" task_node
  let workflow := add_edge workflow STARTN "goal_decomp"
  let workflow := add_edge workflow "goal_decomp" "task_decomp"
  let workflow := add_edge workflow "task_decomp" ENDN
  compileGraph workflow

/-! ### config.py: pydantic field validation -/

/-- Extra-field policy of a pydantic model: forbid rejects undeclared
input fields, ignore (the pydantic default) silently drops them. -/
inductive ExtraPolicy where
  | forbid
  | ignore
deriving DecidableEq

/-- Declared shape of a pydantic model for field-name validation: its
declared field names and its extra-field policy. -/
structure ModelSchemaDecl where
  declaredFields : List String
  extra : ExtraPolicy
deriving DecidableEq

/-- PathsConfig declares output_dir and prompt_dir with extra
forbidden. -/
def pathsConfigDecl : ModelSchemaDecl :=
  { declaredFields := ["output_dir", "prompt_dir"], extra := .forbid }

/-- NodeConfig declares model_name and prompt_cache_key with extra
forbidden. -/
def nodeConfigDecl : ModelSchemaDecl :=
  { declaredFields := ["model_name", "prompt_cache_key"], extra := .forbid }

/-- RunnerConfig declares the two node configs with extra forbidden. -/
def runnerConfigDecl : ModelSchemaDecl :=
  { declaredFields := ["goal_decomp_node", "task_decomp_node"], extra := .forbid }

/-- RobotSkillConfig declares name and skills and sets no model_config,
so it keeps the pydantic default policy of ignoring extra fields. -/
def robotSkillConfigDecl : ModelSchemaDecl :=
  { declaredFields := ["name", "skills"], extra := .ignore }

/-- Config declares paths, runner and skills with extra forbidden. -/
def configDecl : ModelSchemaDecl :=
  { declaredFields := ["paths", "runner", "skills"], extra := .forbid }

/-- Shallow model of pydantic construction restricted to field-name
validation: under forbid, construction succeeds only when every input
key is declared; under ignore, unknown keys never cause a failure. Type
and required-field checks are outside the claims considered here. -/
def acceptsFields (decl : ModelSchemaDecl) (dataKeys : List String) : Bool :=
  match decl.extra with
  | .forbid => dataKeys.all (fun k => decl.declaredFields.contains k)
  | .ignore => true

/-! ### Theorems -/

theorem make_llm_node_stateKey (po : Option PydSchema) (skip : Bool)
    (key : String) (app : Bool) : (make_llm_node po skip key app).stateKey = key := by
  cases skip <;> cases po <;> rfl

theorem make_llm_node_stateAppend (po : Option PydSchema) (skip : Bool)
    (key : String) (app : Bool) : (make_llm_node po skip key app).stateAppend = app := by
  cases skip <;> cases po <;> rfl

theorem getInput_setInput_self (ins : PInputs) (k : String) (v : String) :
    getInput (setInput ins k v) k = some v := by
  induction ins with
  | nil => simp [setInput, getInput]
  | cons hd tl ih =>
    by_cases h : hd.1 = k
    · simp [setInput, h, getInput]
    · simp [setInput, h, getInput, ih]

theorem get_format_instructions_ne (s : PydSchema) :
    get_format_instructions s ≠ "" := by
  intro hcontra
  have hlen := congrArg String.length hcontra
  simp [get_format_instructions, String.length_append] at hlen
  exact absurd hlen.1 (by decide)

theorem runGraph_two_node (gS tS : PydSchema) (gMI tMI : StateV → PInputs)
    (gInv tInv : PInputs → Except AgentError Value) (s : StateV) :
    runGraph (create_graph gS tS gMI tMI gInv tInv) s =
      match nodeRun (make_llm_node (some gS) false "subgoals" false) gMI gInv s with
      | .error e => .error e
      | .ok s1 => nodeRun (make_llm_node (some tS) false "tasks" false) tMI tInv s1 := by
  cases hg : nodeRun (make_llm_node (some gS) false "subgoals" false) gMI gInv s with
  | error e =>
    simp [runGraph, create_graph, compileGraph, emptyGraph, add_node, add_edge,
      runFrom, findNext, findNode, List.find?, STARTN, ENDN, hg]
  | ok s1 =>
    cases ht : nodeRun (make_llm_node (some tS) false "tasks" false) tMI tInv s1 with
    | error e =>
      simp [runGraph, create_graph, compileGraph, emptyGraph, add_node, add_edge,
        runFrom, findNext, findNode, List.find?, STARTN, ENDN, hg, ht]
    | ok s2 =>
      simp [runGraph, create_graph, compileGraph, emptyGraph, add_node, add_edge,
        runFrom, findNext, findNode, List.find?, STARTN, ENDN, hg, ht]

/-- Claim C8: with an output schema supplied and parsing not skipped,
the format instructions are derived from the schema at build time, are
nonempty, and on each invocation are present in the assembled inputs
under the reserved placeholder name format_instructions; with no schema
the pass-through string parser is chosen and the assembled inputs are
exactly what make_inputs produced, with no format_instructions key
added. -/
theorem format_instructions_policy :
    (∀ (s : PydSchema) (key : String) (app : Bool) (mi : StateV → PInputs)
       (st : StateV),
      (make_llm_node (some s) false key app).formatInstructions =
        get_format_instructions s ∧
      get_format_instructions s ≠ "" ∧
      getInput (assembleInputs (make_llm_node (some s) false key app) mi st)
        "format_instructions" = some (get_format_instructions s)) ∧
    (∀ (key : String) (app : Bool) (mi : StateV → PInputs) (st : StateV),
      (make_llm_node none false key app).parserKind = some .strOutput ∧
      assembleInputs (make_llm_node none false key app) mi st = mi st) := by
  constructor
  · intro s key app mi st
    refine ⟨rfl, get_format_instructions_ne s, ?_⟩
    simp [assembleInputs, make_llm_node, get_format_instructions_ne s,
      getInput_setInput_self]
  · intro key app mi st
    exact ⟨rfl, rfl⟩

/-- Claim C2: a node produced by make_llm_node propagates an error of
the model invocation or output parsing step to its caller unrecovered,
committing nothing to the state: the only state commit sits after a
successful invocation and parse. In the two-node graph, a failing goal
invocation aborts the run with that error, and downstream-of-failure
fields keep the values they had when the node was entered. -/
theorem node_error_propagation :
    (∀ (po : Option PydSchema) (skip : Bool) (key : String) (app : Bool)
       (mi : StateV → PInputs) (inv : PInputs → Except AgentError Value)
       (st : StateV) (e : AgentError),
      inv (assembleInputs (make_llm_node po skip key app) mi st) = .error e →
      nodeRun (make_llm_node po skip key app) mi inv st = .error e) ∧
    (∀ (gS tS : PydSchema) (gMI tMI : StateV → PInputs)
       (gInv tInv : PInputs → Except AgentError Value) (s0 : StateV) (e : AgentError),
      gInv (assembleInputs (make_llm_node (some gS) false "subgoals" false) gMI s0) =
        .error e →
      runGraph (create_graph gS tS gMI tMI gInv tInv) s0 = .error e) := by
  have prop : ∀ (po : Option PydSchema) (skip : Bool) (key : String) (app : Bool)
      (mi : StateV → PInputs) (inv : PInputs → Except AgentError Value)
      (st : StateV) (e : AgentError),
      inv (assembleInputs (make_llm_node po skip key app) mi st) = .error e →
      nodeRun (make_llm_node po skip key app) mi inv st = .error e := by
    intro po skip key app mi inv st e h
    simp only [nodeRun]
    rw [h]
  refine ⟨prop, ?_⟩
  intro gS tS gMI tMI gInv tInv s0 e h
  rw [runGraph_two_node, prop (some gS) false "subgoals" false gMI gInv s0 e h]

/-- Witness for C2: a mocked transport failure on the goal invocation
surfaces through the node and aborts a two-node run with that error. -/
theorem node_error_propagation_witness :
    nodeRun (make_llm_node (some { schemaText := "goal-schema" }) false "subgoals" false)
      (fun _ => []) (fun _ => .error .modelInvocation) make_base_state =
      .error .modelInvocation ∧
    runGraph (create_graph { schemaText := "goal-schema" } { schemaText := "task-schema" }
      (fun _ => []) (fun _ => [])
      (fun _ => .error .modelInvocation) (fun _ => .ok (.list [])))
      make_base_state = .error .modelInvocation :=
  ⟨node_error_propagation.1 (some { schemaText := "goal-schema" }) false "subgoals" false
    (fun _ => []) (fun _ => .error .modelInvocation) make_base_state .modelInvocation rfl,
   node_error_propagation.2 { schemaText := "goal-schema" } { schemaText := "task-schema" }
    (fun _ => []) (fun _ => [])
    (fun _ => .error .modelInvocation) (fun _ => .ok (.list []))
    make_base_state .modelInvocation rfl⟩

/-- Claim C1: a node produced by make_llm_node commits the parsed result
under its merge policy after a successful invocation: append pushes the
result onto the existing sequence at the target key, replace overwrites
the target key. In the compiled two-node graph both nodes are configured
with replace (goal node on subgoals, task node on tasks), so after an
error-free run the tasks field equals exactly the parsed output of the
task node invocation, never appended to pre-existing content. -/
theorem merge_policy_commit :
    (∀ (po : Option PydSchema) (skip : Bool) (key : String)
       (mi : StateV → PInputs) (inv : PInputs → Except AgentError Value)
       (st : StateV) (l : List Value) (r : Value),
      getV st key = some (.list l) →
      inv (assembleInputs (make_llm_node po skip key true) mi st) = .ok r →
      nodeRun (make_llm_node po skip key true) mi inv st =
        .ok (setV st key (.list (l ++ [r])))) ∧
    (∀ (po : Option PydSchema) (skip : Bool) (key : String)
       (mi : StateV → PInputs) (inv : PInputs → Except AgentError Value)
       (st : StateV) (r : Value),
      inv (assembleInputs (make_llm_node po skip key false) mi st) = .ok r →
      nodeRun (make_llm_node po skip key false) mi inv st = .ok (setV st key r)) ∧
    (∀ gS tS : PydSchema,
      (make_llm_node (some gS) false "subgoals" false).stateAppend = false ∧
      (make_llm_node (some gS) false "subgoals" false).stateKey = "subgoals" ∧
      (make_llm_node (some tS) false "tasks" false).stateAppend = false ∧
      (make_llm_node (some tS) false "tasks" false).stateKey = "tasks") ∧
    (∀ (gS tS : PydSchema) (gMI tMI : StateV → PInputs)
       (gInv tInv : PInputs → Except AgentError Value) (s0 s1 : StateV) (r : Value),
      nodeRun (make_llm_node (some gS) false "subgoals" false) gMI gInv s0 = .ok s1 →
      tInv (assembleInputs (make_llm_node (some tS) false "tasks" false) tMI s1) = .ok r →
      runGraph (create_graph gS tS gMI tMI gInv tInv) s0 = .ok (setV s1 "tasks" r) ∧
      getV (setV s1 "tasks" r) "tasks" = some r) := by
  have rep : ∀ (po : Option PydSchema) (skip : Bool) (key : String)
      (mi : StateV → PInputs) (inv : PInputs → Except AgentError Value)
      (st : StateV) (r : Value),
      inv (assembleInputs (make_llm_node po skip key false) mi st) = .ok r →
      nodeRun (make_llm_node po skip key false) mi inv st = .ok (setV st key r) := by
    intro po skip key mi inv st r hinv
    simp only [nodeRun, make_llm_node_stateAppend, make_llm_node_stateKey]
    rw [hinv]
    simp
  refine ⟨?_, rep, fun gS tS => ⟨rfl, rfl, rfl, rfl⟩, ?_⟩
  · intro po skip key mi inv st l r hget hinv
    simp only [nodeRun, make_llm_node_stateAppend, make_llm_node_stateKey]
    rw [hinv]
    simp only [if_pos rfl]
    rw [hget]
    simp
  · intro gS tS gMI tMI gInv tInv s0 s1 r hgoal htask
    constructor
    · rw [runGraph_two_node, hgoal]
      exact rep (some tS) false "tasks" tMI tInv s1 r htask
    · exact getV_setV_self s1 "tasks" r

/-- Witness for C1: an error-free two-node run from the base state with
mocked invocations replaces subgoals with the goal output and tasks with
the task output, and the final tasks field is exactly the task
output. -/
theorem merge_policy_commit_witness :
    runGraph (create_graph { schemaText := "gs" } { schemaText := "ts" }
        (fun _ => []) (fun _ => [])
        (fun _ => .ok (.list [.str "sg1", .str "sg2", .str "sg3"]))
        (fun _ => .ok (.list [.dict [("task", .str "t1")], .dict [("task", .str "t2")]])))
      make_base_state =
      .ok (setV (setV make_base_state "subgoals" (.list [.str "sg1", .str "sg2", .str "sg3"]))
        "tasks" (.list [.dict [("task", .str "t1")], .dict [("task", .str "t2")]])) ∧
    getV (setV (setV make_base_state "subgoals" (.list [.str "sg1", .str "sg2", .str "sg3"]))
        "tasks" (.list [.dict [("task", .str "t1")], .dict [("task", .str "t2")]])) "tasks" =
      some (.list [.dict [("task", .str "t1")], .dict [("task", .str "t2")]]) :=
  merge_policy_commit.2.2.2 { schemaText := "gs" } { schemaText := "ts" }
    (fun _ => []) (fun _ => [])
    (fun _ => .ok (.list [.str "sg1", .str "sg2", .str "sg3"]))
    (fun _ => .ok (.list [.dict [("task", .str "t1")], .dict [("task", .str "t2")]]))
    make_base_state
    (setV make_base_state "subgoals" (.list [.str "sg1", .str "sg2", .str "sg3"]))
    (.list [.dict [("task", .str "t1")], .dict [("task", .str "t2")]])
    rfl rfl

/-- Claim C4: a successful node invocation changes no state field other
than the node's target key (the input-assembly seam is a pure read in
this embedding, matching the hypothesis that make_inputs does not itself
mutate the state); in an error-free two-node run, user_queries and
inputs are unchanged. -/
theorem node_frame_effect :
    (∀ (po : Option PydSchema) (skip : Bool) (key : String) (app : Bool)
       (mi : StateV → PInputs) (inv : PInputs → Except AgentError Value)
       (st st' : StateV) (k : String),
      nodeRun (make_llm_node po skip key app) mi inv st = .ok st' →
      k ≠ key → getV st' k = getV st k) ∧
    (∀ (gS tS : PydSchema) (gMI tMI : StateV → PInputs)
       (gInv tInv : PInputs → Except AgentError Value) (s0 sf : StateV),
      runGraph (create_graph gS tS gMI tMI gInv tInv) s0 = .ok sf →
      getV sf "user_queries" = getV s0 "user_queries" ∧
      getV sf "inputs" = getV s0 "inputs") := by
  have frame : ∀ (po : Option PydSchema) (skip : Bool) (key : String) (app : Bool)
      (mi : StateV → PInputs) (inv : PInputs → Except AgentError Value)
      (st st' : StateV) (k : String),
      nodeRun (make_llm_node po skip key app) mi inv st = .ok st' →
      k ≠ key → getV st' k = getV st k := by
    intro po skip key app mi inv st st' k hrun hk
    simp only [nodeRun, make_llm_node_stateAppend, make_llm_node_stateKey] at hrun
    cases hinv : inv (assembleInputs (make_llm_node po skip key app) mi st) with
    | error e => rw [hinv] at hrun; simp at hrun
    | ok r =>
      rw [hinv] at hrun
      cases app with
      | false =>
        simp only [Bool.false_eq_true, if_false] at hrun
        have hs := Except.ok.inj hrun
        rw [← hs]
        exact getV_setV_ne st key k r hk
      | true =>
        simp only [if_pos rfl] at hrun
        cases hget : getV st key with
        | none => rw [hget] at hrun; simp at hrun
        | some v =>
          rw [hget] at hrun
          cases v with
          | str s2 => simp at hrun
          | dict d => simp at hrun
          | list l =>
            have hs := Except.ok.inj hrun
            rw [← hs]
            exact getV_setV_ne st key k _ hk
  refine ⟨frame, ?_⟩
  intro gS tS gMI tMI gInv tInv s0 sf hrun
  rw [runGraph_two_node] at hrun
  cases hg : nodeRun (make_llm_node (some gS) false "subgoals" false) gMI gInv s0 with
  | error e => rw [hg] at hrun; simp at hrun
  | ok s1 =>
    rw [hg] at hrun
    have huq1 : getV s1 "user_queries" = getV s0 "user_queries" :=
      frame (some gS) false "subgoals" false gMI gInv s0 s1 "user_queries" hg (by decide)
    have hin1 : getV s1 "inputs" = getV s0 "inputs" :=
      frame (some gS) false "subgoals" false gMI gInv s0 s1 "inputs" hg (by decide)
    have huq2 : getV sf "user_queries" = getV s1 "user_queries" :=
      frame (some tS) false "tasks" false tMI tInv s1 sf "user_queries" hrun (by decide)
    have hin2 : getV sf "inputs" = getV s1 "inputs" :=
      frame (some tS) false "tasks" false tMI tInv s1 sf "inputs" hrun (by decide)
    exact ⟨huq2.trans huq1, hin2.trans hin1⟩

/-- Witness for C4: a successful replace commit on subgoals leaves the
user_queries field of the base state unchanged. -/
theorem node_frame_effect_witness :
    getV (setV make_base_state "subgoals" (.list [.str "sg"])) "user_queries" =
      getV make_base_state "user_queries" :=
  node_frame_effect.1 (some { schemaText := "gs" }) false "subgoals" false
    (fun _ => []) (fun _ => .ok (.list [.str "sg"])) make_base_state
    (setV make_base_state "subgoals" (.list [.str "sg"])) "user_queries" rfl (by decide)

/-- Claim C5: create_graph builds a plan whose nodes are exactly
goal_decomp and task_decomp with edge list START to goal_decomp,
goal_decomp to task_decomp, task_decomp to END; exactly one edge
originates at START, the execution order visits goal_decomp then
task_decomp, each exactly once, and END is reachable from every node. -/
theorem two_node_graph_shape (gS tS : PydSchema) (gMI tMI : StateV → PInputs)
    (gInv tInv : PInputs → Except AgentError Value) :
    (create_graph gS tS gMI tMI gInv tInv).nodes.map Prod.fst =
      ["goal_decomp", "task_decomp"] ∧
    (create_graph gS tS gMI tMI gInv tInv).edges =
      [(STARTN, "goal_decomp"), ("goal_decomp", "task_decomp"), ("task_decomp", ENDN)] ∧
    ((create_graph gS tS gMI tMI gInv tInv).edges.filter
      (fun e => e.1 == STARTN)).length = 1 ∧
    execOrder (create_graph gS tS gMI tMI gInv tInv) = ["goal_decomp", "task_decomp"] ∧
    (execOrder (create_graph gS tS gMI tMI gInv tInv)).Nodup ∧
    ∀ n ∈ (create_graph gS tS gMI tMI gInv tInv).nodes.map Prod.fst,
      reachesEND (create_graph gS tS gMI tMI gInv tInv).edges
        ((create_graph gS tS gMI tMI gInv tInv).edges.length + 1) n = true := by
  refine ⟨rfl, rfl, rfl, rfl, ?_, ?_⟩
  · have he : execOrder (create_graph gS tS gMI tMI gInv tInv) =
        ["goal_decomp", "task_decomp"] := rfl
    rw [he]
    decide
  intro n hn
  have hcase : n = "goal_decomp" ∨ n = "task_decomp" := by
    simpa [create_graph, compileGraph, emptyGraph, add_node, add_edge] using hn
  rcases hcase with h | h <;> subst h <;> rfl

/-- Witness for C5: END is reachable from goal_decomp in a concrete
instantiation of the compiled two-node plan. -/
theorem two_node_graph_shape_witness :
    reachesEND (create_graph { schemaText := "gs" } { schemaText := "ts" }
        (fun _ => []) (fun _ => [])
        (fun _ => .ok (.list [])) (fun _ => .ok (.list []))).edges
      ((create_graph { schemaText := "gs" } { schemaText := "ts" }
        (fun _ => []) (fun _ => [])
        (fun _ => .ok (.list [])) (fun _ => .ok (.list []))).edges.length + 1)
      "goal_decomp" = true :=
  (two_node_graph_shape { schemaText := "gs" } { schemaText := "ts" }
    (fun _ => []) (fun _ => [])
    (fun _ => .ok (.list [])) (fun _ => .ok (.list []))).2.2.2.2.2
    "goal_decomp" (List.Mem.head _)

/-- Claim C10: create_llm treats an empty-string prompt_cache_key exactly
like an absent one. For prompt_cache_key None or the empty string the
constructed client receives no extra_body, so the caller silently gets an
uncached client; only a nonempty key produces the singleton extra_body
mapping prompt_cache_key to that key. -/
theorem create_llm_cache_key_truthiness :
    (∀ (m : ModelNames) (t : Option ℚ), (create_llm m t none).extra_body = none) ∧
    (∀ (m : ModelNames) (t : Option ℚ), (create_llm m t (some "")).extra_body = none) ∧
    (∀ (m : ModelNames) (t : Option ℚ) (k : String), k ≠ "" →
      (create_llm m t (some k)).extra_body = some [("prompt_cache_key", k)]) := by
  refine ⟨fun m t => rfl, fun m t => rfl, fun m t k hk => ?_⟩
  simp [create_llm, hk]

/-- Witness for C10 at the cache key the repository configuration
passes for the goal node. -/
theorem create_llm_cache_key_truthiness_witness :
    (create_llm .gpt41mini none (some "goal_decomp_node")).extra_body =
      some [("prompt_cache_key", "goal_decomp_node")] :=
  create_llm_cache_key_truthiness.2.2 .gpt41mini none "goal_decomp_node" (by decide)

/-- Claim C3: a model identifier resolving against the supported
enumeration neither by value nor by symbolic name makes the client
creation path fail with UnknownModelError, with no client constructed
(hence no network call); an identifier matching a member by value or by
name resolves to that member. -/
theorem model_resolution_policy :
    (∀ (s : String) (ck : Option String),
      (∀ m ∈ allModels, m.value ≠ s ∧ m.symName ≠ s) →
      create_client_for s ck = .error .unknownModel) ∧
    (∀ (s : String) (m : ModelNames), m ∈ allModels →
      (m.value = s ∨ m.symName = s) → resolve_model_enum s = .ok m) := by
  constructor
  · intro s ck h
    have h1 := h .gpt41mini (by simp [allModels])
    have hb1 : ("gpt-4.1-mini" == s) = false :=
      beq_eq_false_iff_ne.mpr (by simpa [ModelNames.value] using h1.1)
    have hb2 : ("gpt41mini" == s) = false :=
      beq_eq_false_iff_ne.mpr (by simpa [ModelNames.symName] using h1.2)
    simp [create_client_for, resolve_model_enum, allModels, List.find?,
      ModelNames.value, ModelNames.symName, hb1, hb2]
  · intro s m _ hmatch
    cases m
    rcases hmatch with hv | hn
    · rw [← hv]; rfl
    · rw [← hn]
      simp [resolve_model_enum, allModels, List.find?, ModelNames.value,
        ModelNames.symName]

/-- Witness for C3: the unrecognized identifier of the spec scenario
fails with UnknownModelError, and the configured identifier gpt41mini
resolves by symbolic name. -/
theorem model_resolution_policy_witness :
    create_client_for "not-a-real-model" none = .error .unknownModel ∧
    resolve_model_enum "gpt41mini" = .ok .gpt41mini :=
  ⟨model_resolution_policy.1 "not-a-real-model" none (by decide),
   model_resolution_policy.2 "gpt41mini" .gpt41mini (by decide) (by decide)⟩

/-- Counterexample to claim C6 as stated: RobotSkillConfig sets no
model_config, so the pydantic default applies and construction from data
holding the undeclared field name extra_field is accepted rather than
rejected. -/
theorem robot_skill_extra_field_accepted :
    acceptsFields robotSkillConfigDecl ["name", "skills", "extra_field"] = true ∧
    robotSkillConfigDecl.declaredFields.contains "extra_field" = false := by
  decide

/-- Claim C6 amended: PathsConfig, NodeConfig, RunnerConfig and Config
forbid extra fields, so data holding any undeclared field name fails
validation; RobotSkillConfig keeps the pydantic default and silently
ignores unrecognized fields. -/
theorem config_extra_field_policy :
    (∀ (ks : List String) (k : String), k ∈ ks →
      k ∉ pathsConfigDecl.declaredFields → acceptsFields pathsConfigDecl ks = false) ∧
    (∀ (ks : List String) (k : String), k ∈ ks →
      k ∉ nodeConfigDecl.declaredFields → acceptsFields nodeConfigDecl ks = false) ∧
    (∀ (ks : List String) (k : String), k ∈ ks →
      k ∉ runnerConfigDecl.declaredFields → acceptsFields runnerConfigDecl ks = false) ∧
    (∀ (ks : List String) (k : String), k ∈ ks →
      k ∉ configDecl.declaredFields → acceptsFields configDecl ks = false) ∧
    (∀ ks : List String, acceptsFields robotSkillConfigDecl ks = true) := by
  have gen : ∀ (d : ModelSchemaDecl), d.extra = .forbid →
      ∀ (ks : List String) (k : String), k ∈ ks → k ∉ d.declaredFields →
      acceptsFields d ks = false := by
    intro d hd ks k hk hnot
    simp only [acceptsFields, hd]
    rw [List.all_eq_false]
    exact ⟨k, hk, by simpa using hnot⟩
  exact ⟨gen pathsConfigDecl rfl, gen nodeConfigDecl rfl, gen runnerConfigDecl rfl,
    gen configDecl rfl, fun ks => rfl⟩

/-- Witness for C6 amended: each forbid structure rejects a concrete
undeclared field, and RobotSkillConfig accepts one. -/
theorem config_extra_field_policy_witness :
    acceptsFields pathsConfigDecl ["output_dir", "bogus"] = false ∧
    acceptsFields nodeConfigDecl ["model_name", "bogus"] = false ∧
    acceptsFields runnerConfigDecl ["goal_decomp_node", "bogus"] = false ∧
    acceptsFields configDecl ["paths", "bogus"] = false ∧
    acceptsFields robotSkillConfigDecl ["name", "skills", "bogus"] = true :=
  ⟨config_extra_field_policy.1 ["output_dir", "bogus"] "bogus" (by decide) (by decide),
   config_extra_field_policy.2.1 ["model_name", "bogus"] "bogus" (by decide) (by decide),
   config_extra_field_policy.2.2.1 ["goal_decomp_node", "bogus"] "bogus" (by decide) (by decide),
   config_extra_field_policy.2.2.2.1 ["paths", "bogus"] "bogus" (by decide) (by decide),
   config_extra_field_policy.2.2.2.2 ["name", "skills", "bogus"]⟩

theorem skillLine_foldl (lastS : String) (l : List String) (acc : String) :
    l.foldl (fun a sk => a ++ sk ++ (if sk = lastS then "" else ", ")) acc =
      acc ++ emitSkills lastS l := by
  induction l generalizing acc with
  | nil => simp [emitSkills, String.append_empty]
  | cons hd tl ih =>
    rw [List.foldl_cons, ih]
    simp [emitSkills, String.append_assoc]

theorem lastSkill_cons_cons (x y : String) (rest : List String) :
    lastSkill (x :: y :: rest) = lastSkill (y :: rest) := by
  simp [lastSkill, List.getLast?_cons_cons]

theorem emitSkills_eq_sepJoin (l : List String)
    (h : ∀ sk ∈ l.dropLast, sk ≠ lastSkill l) :
    emitSkills (lastSkill l) l = sepJoin ", " l := by
  induction l with
  | nil => rfl
  | cons hd tl ih =>
    cases tl with
    | nil => simp [emitSkills, sepJoin, lastSkill, String.append_empty]
    | cons y rest =>
      have hx : hd ≠ lastSkill (hd :: y :: rest) := by
        apply h
        rw [List.dropLast_cons₂]
        exact List.mem_cons_self hd _
      have htl : ∀ sk ∈ (y :: rest).dropLast, sk ≠ lastSkill (y :: rest) := by
        intro sk hsk
        have hmem : sk ∈ (hd :: y :: rest).dropLast := by
          rw [List.dropLast_cons₂]
          exact List.mem_cons_of_mem hd hsk
        have := h sk hmem
        simpa [lastSkill_cons_cons] using this
      rw [lastSkill_cons_cons] at hx
      rw [lastSkill_cons_cons]
      have step : emitSkills (lastSkill (y :: rest)) (hd :: y :: rest) =
          hd ++ (if hd = lastSkill (y :: rest) then "" else ", ") ++
            emitSkills (lastSkill (y :: rest)) (y :: rest) := rfl
      rw [step, if_neg hx, ih htl]
      rfl

/-- Claim C9: for skill configurations where each robot has a nonempty
skill list and no skill before the final position equals the final
skill, make_skill_text yields one line per robot of the import stem
followed by the skills joined by the comma separator, lines joined by
newlines; and when an earlier skill equals the final skill the separator
after that earlier occurrence is omitted, witnessed by the concrete list
where the final skill also occurs first. -/
theorem make_skill_text_shape :
    (∀ cfgs : List RobotSkillConfig,
      (∀ r ∈ cfgs, r.skills ≠ [] ∧ ∀ sk ∈ r.skills.dropLast, sk ≠ lastSkill r.skills) →
      make_skill_text cfgs =
        sepJoin "\n" (cfgs.map (fun r =>
          "from " ++ r.name ++ ".skills import " ++ sepJoin ", " r.skills))) ∧
    skillLine { name := "robot1", skills := ["PickObject", "GoToObject", "PickObject"] } =
      "from robot1.skills import PickObjectGoToObject, PickObject" := by
  constructor
  · intro cfgs h
    unfold make_skill_text
    congr 1
    apply List.map_congr_left
    intro r hr
    have hline : skillLine r =
        ("from " ++ r.name ++ ".skills import ") ++ emitSkills (lastSkill r.skills) r.skills := by
      unfold skillLine
      exact skillLine_foldl (lastSkill r.skills) r.skills _
    rw [hline, emitSkills_eq_sepJoin r.skills (h r hr).2, String.append_assoc]
  · decide

/-- Witness for C9 at the skill configuration shipped in config.py. -/
theorem make_skill_text_shape_witness :
    make_skill_text
      [{ name := "robot1", skills := ["GoToObject", "PickObject", "PlaceObject"] }] =
      "from robot1.skills import GoToObject, PickObject, PlaceObject" := by
  rw [make_skill_text_shape.1
    [{ name := "robot1", skills := ["GoToObject", "PickObject", "PlaceObject"] }]
    (by decide)]
  rfl

/-- Claim C7: make_state returns a fresh state whose user_queries is the
one-element list of the query, whose subgoals and tasks are empty, and
whose inputs mapping holds exactly the keys object_text and skill_text,
populated from the environment call and the skill configuration. -/
theorem make_state_fields (q : String) (config_skills : List RobotSkillConfig)
    (objects : List String) :
    getV (make_state q config_skills objects) "user_queries" = some (.list [.str q]) ∧
    getV (make_state q config_skills objects) "subgoals" = some (.list []) ∧
    getV (make_state q config_skills objects) "tasks" = some (.list []) ∧
    getV (make_state q config_skills objects) "inputs" =
      some (.dict [("object_text", .str (make_object_text objects)),
                   ("skill_text", .str (make_skill_text config_skills))]) ∧
    (make_inputs config_skills objects).map Prod.fst = ["object_text", "skill_text"] := by
  refine ⟨rfl, rfl, rfl, rfl, rfl⟩

end Agent
